import Mathlib

/-!
Verification of the WASM dynarec backend (`rec_wasm.cpp`): the `compile`
buffer-accounting path and the interpreter-fallback `mainloop` dispatch loop,
shallowly embedded as executable Lean functions.
-/

namespace RecWasm

/-- Cycle cost per interpreted instruction (`CYCLES_PER_INSTRUCTION` in the source). -/
def CYCLES_PER_INSTRUCTION : Int := 1

/-- Modelled from the spec: the Code Buffer is "an append-only byte region with a
cursor and remaining-capacity counter" whose driver API is
`currentFreeSpace() -> size` and allocation by advancing the cursor; the
`Sh4CodeBuffer` class itself is not part of the patch sources, only its
`get`/`getFreeSpace`/`advance` calls appear there. -/
structure Sh4CodeBuffer where
  cursor : Nat
  free : Nat
deriving DecidableEq

/-- `codeBuffer->get()`: the current cursor position (the next allocation address). -/
def Sh4CodeBuffer.get (b : Sh4CodeBuffer) : Nat := b.cursor

/-- `codeBuffer->getFreeSpace()`: remaining capacity. -/
def Sh4CodeBuffer.getFreeSpace (b : Sh4CodeBuffer) : Nat := b.free

/-- `codeBuffer->advance(n)`: move the cursor forward by `n` bytes, consuming capacity. -/
def Sh4CodeBuffer.advance (b : Sh4CodeBuffer) (n : Nat) : Sh4CodeBuffer :=
  ⟨b.cursor + n, b.free - n⟩

/-- The only field of `RuntimeBlockInfo` written by this backend: the `code`
entry pointer. `none` models a block whose entry was never set. -/
structure RuntimeBlockInfo where
  code : Option Nat
deriving DecidableEq

/-- `WasmDynarec::compile`: unconditionally set `block->code` to the current
buffer cursor, then advance the buffer by `spaceNeeded = 4` bytes only when
enough free space remains. The two policy flags are accepted and ignored,
as in the source. -/
def compile (buf : Sh4CodeBuffer) (block : RuntimeBlockInfo)
    (smc_checks : Bool) (optimise : Bool) : Sh4CodeBuffer × RuntimeBlockInfo :=
  let block := { block with code := some buf.get }
  let spaceNeeded := 4
  if spaceNeeded ≤ buf.getFreeSpace then (buf.advance spaceNeeded, block)
  else (buf, block)

/-- Iterate `compile` `n` times, tracking only the buffer state. -/
def compileN : Nat → Sh4CodeBuffer → Sh4CodeBuffer
  | 0, buf => buf
  | n + 1, buf => compileN n (compile buf ⟨none⟩ false false).1

/-- The slice of `Sh4Context` touched by the dispatch loop: program counter,
the `sr.FD` floating-point-disable flag, the signed cycle budget, the running
flag, and two abstract registers standing for the floating-point register file
(`fr`) and the general state (`r`) mutated only by external callbacks. -/
structure Sh4Context where
  pc : Nat
  sr_FD : Bool
  cycle_counter : Int
  CpuRunning : Bool
  fr : Nat
  r : Nat
deriving DecidableEq

/-- Exception kinds: the loop itself raises only `Sh4Ex_FpuDisabled`; the
semantics table may raise any other code. -/
inductive Sh4ExceptionCode where
  | FpuDisabled
  | other (code : Nat)
deriving DecidableEq

/-- `SH4ThrownException`: faulting instruction address and exception code. -/
structure SH4ThrownException where
  epc : Nat
  expEvn : Sh4ExceptionCode
deriving DecidableEq

/-- The external collaborators the loop calls, as the source names them:
instruction fetch (`IReadMem16`), the `OpDesc[op]->IsFloatingPoint()`
predicate, the semantics table `OpPtr` (which may mutate the context and raise
an exception), the exception entry `Do_Exception`, the per-timeslice
`UpdateSystem_INTC` step, and the `SH4_TIMESLICE` quantum. -/
structure DispatchEnv where
  IReadMem16 : Nat → Nat
  isFloatingPoint : Nat → Bool
  OpPtr : Nat → Sh4Context → Sh4Context × Option SH4ThrownException
  Do_Exception : Nat → Sh4ExceptionCode → Sh4Context → Sh4Context
  UpdateSystem_INTC : Sh4Context → Sh4Context
  SH4_TIMESLICE : Nat

/-- The semantics-table call made for one instruction: `OpPtr[op]` applied to
the context whose program counter was already advanced past the instruction. -/
def semResult (env : DispatchEnv) (ctx : Sh4Context) :
    Sh4Context × Option SH4ThrownException :=
  env.OpPtr (env.IReadMem16 ctx.pc % 65536)
    { ctx with pc := (ctx.pc + 2) % 4294967296 }

/-- One iteration of the inner dispatch loop body: fetch at `pc`, advance `pc`
by 2 (mod 2^32), raise `FpuDisabled` when `sr.FD` is set and the opcode is a
floating-point operation, otherwise run the semantics and, only on normal
return, charge `CYCLES_PER_INSTRUCTION` against the budget. -/
def execInstr (env : DispatchEnv) (ctx : Sh4Context) :
    Sh4Context × Option SH4ThrownException :=
  let addr := ctx.pc
  let ctx1 := { ctx with pc := (addr + 2) % 4294967296 }
  let op := env.IReadMem16 addr % 65536
  if ctx1.sr_FD && env.isFloatingPoint op then
    (ctx1, some ⟨addr, Sh4ExceptionCode.FpuDisabled⟩)
  else
    match env.OpPtr op ctx1 with
    | (ctx2, some ex) => (ctx2, some ex)
    | (ctx2, none) =>
      ({ ctx2 with cycle_counter := ctx2.cycle_counter - CYCLES_PER_INSTRUCTION }, none)

/-- How the inner `do { ... } while (cycle_counter > 0)` loop ended. -/
inductive InnerExit where
  | budget
  | exn (e : SH4ThrownException)
  | fuelOut
deriving DecidableEq

/-- The inner dispatch loop, fuel-bounded (the semantics table may refill the
budget, so termination is not structural). It executes at least one
instruction, then repeats while `cycle_counter > 0`, exiting early when an
exception is raised. -/
def innerLoop : Nat → DispatchEnv → Sh4Context → Sh4Context × InnerExit
  | 0, _, ctx => (ctx, .fuelOut)
  | n + 1, env, ctx =>
    match execInstr env ctx with
    | (c, some e) => (c, .exn e)
    | (c, none) =>
      if 0 < c.cycle_counter then innerLoop n env c else (c, .budget)

/-- How one outer-loop iteration ended: a timeslice rollover, or handling of a
raised exception. -/
inductive OuterExit where
  | rolled
  | excepted (e : SH4ThrownException)
  | fuelOut
deriving DecidableEq

/-- One iteration of the outer `do { try { ... } } while (CpuRunning)` body:
run the inner loop; on budget exhaustion add `SH4_TIMESLICE` to the counter
and call `UpdateSystem_INTC` once; on a raised exception call `Do_Exception`
with the recorded faulting address and then execute
`cycle_counter += 5 // exception drain cycles` as the source does. -/
def outerBody (ifuel : Nat) (env : DispatchEnv) (ctx : Sh4Context) :
    Sh4Context × OuterExit :=
  match innerLoop ifuel env ctx with
  | (c, .budget) =>
    (env.UpdateSystem_INTC
      { c with cycle_counter := c.cycle_counter + (env.SH4_TIMESLICE : Int) },
     .rolled)
  | (c, .exn e) =>
    let d := env.Do_Exception e.epc e.expEvn c
    ({ d with cycle_counter := d.cycle_counter + 5 }, .excepted e)
  | (c, .fuelOut) => (c, .fuelOut)

/-- The outer loop, fuel-bounded. Returns the final context, the number of
timeslice rollovers (`timeslice_count` in the source), and whether the loop
completed by observing `CpuRunning = false` (as opposed to running out of
fuel). The running flag is consulted exactly where the source's
`while (CpuRunning)` condition sits: after each outer-body iteration. -/
def mainloopAux : Nat → Nat → DispatchEnv → Sh4Context → Sh4Context × Nat × Bool
  | 0, _, _, ctx => (ctx, 0, false)
  | n + 1, ifuel, env, ctx =>
    match outerBody ifuel env ctx with
    | (c, .fuelOut) => (c, 0, false)
    | (c, .rolled) =>
      if c.CpuRunning then
        let r := mainloopAux n ifuel env c
        (r.1, r.2.1 + 1, r.2.2)
      else (c, 1, true)
    | (c, .excepted _) =>
      if c.CpuRunning then mainloopAux n ifuel env c
      else (c, 0, true)

/-- `WasmDynarec::mainloop`: the outer loop followed by the epilogue
`sh4ctx->CpuRunning = false`. -/
def mainloop (ofuel ifuel : Nat) (env : DispatchEnv) (ctx : Sh4Context) :
    Sh4Context × Nat × Bool :=
  let r := mainloopAux ofuel ifuel env ctx
  ({ r.1 with CpuRunning := false }, r.2)

/-- A context at the start of a timeslice scenario: pc 0, FPU enabled, budget
10, running. -/
def ctx10 : Sh4Context := ⟨0, false, 10, true, 0, 0⟩

/-- An environment whose semantics do nothing: every opcode is a 1-cycle no-op,
no exceptions, identity system step, quantum `T`. -/
def envNoop (T : Nat) : DispatchEnv :=
  ⟨fun _ => 0, fun _ => false, fun _ c => (c, none), fun _ _ c => c, id, T⟩

/-- An environment where every opcode is floating-point and the exception entry
writes handler address 256. -/
def envFpu : DispatchEnv :=
  ⟨fun _ => 0, fun _ => true, fun _ c => (c, none),
   fun _ _ c => { c with pc := 256 }, id, 448⟩

/-- A context with the FPU-disabled flag set at pc 0 and budget 10. -/
def ctxFD : Sh4Context := ⟨0, true, 10, true, 0, 0⟩

/-- An environment where the opcode at address 0 clears the running flag and
every other opcode raises an exception; the exception entry writes handler
address 256. -/
def envHalt : DispatchEnv :=
  ⟨fun a => a, fun _ => false,
   fun op c =>
     if op = 0 then ({ c with CpuRunning := false }, none)
     else (c, some ⟨c.pc, Sh4ExceptionCode.other 9⟩),
   fun _ _ c => { c with pc := 256 }, id, 448⟩

/-- An environment whose semantics mutate `r` and then raise an exception at
the observed pc. -/
def envRaise : DispatchEnv :=
  ⟨fun _ => 0, fun _ => false,
   fun _ c => ({ c with r := 77 }, some ⟨c.pc, Sh4ExceptionCode.other 3⟩),
   fun _ _ c => c, id, 448⟩

end RecWasm

namespace RecWasm

/-- C1 -- Counterexample: with 0 bytes free, `compile` does leave the free space
unchanged, but it does not leave the block's entry field unset: the entry is
written with the current cursor address. -/
theorem compile_full_buffer_sets_entry_counterexample :
    (compile ⟨7, 0⟩ ⟨none⟩ false false).1.free = 0 ∧
    ¬ (compile ⟨7, 0⟩ ⟨none⟩ false false).2.code = none := by
  constructor
  · rfl
  · decide

/-- C1 (amended) -- When the buffer's free space is insufficient for the 4-byte
unit, `compile` is a no-op on the buffer (cursor and free space unchanged), but
the block's entry field is still written with the current cursor address rather
than being left unset. -/
theorem compile_insufficient_space_buffer_noop (buf : Sh4CodeBuffer)
    (block : RuntimeBlockInfo) (h : buf.getFreeSpace < 4) :
    compile buf block false false = (buf, { block with code := some buf.cursor }) := by
  unfold compile
  simp only [Sh4CodeBuffer.get]
  rw [if_neg (by omega)]

/-- C1 witness: instantiate at a buffer with 0 bytes free. -/
theorem compile_insufficient_space_buffer_noop_witness :
    compile ⟨7, 0⟩ ⟨none⟩ false false = (⟨7, 0⟩, ⟨some 7⟩) :=
  compile_insufficient_space_buffer_noop ⟨7, 0⟩ ⟨none⟩ (by decide)

/-- C2 -- Counterexample: on a buffer with 0 bytes free, two consecutive
`compile` calls give both blocks the same entry address (they alias). -/
theorem compile_consecutive_alias_counterexample :
    (compile ⟨7, 0⟩ ⟨none⟩ false false).2.code = some 7 ∧
    (compile (compile ⟨7, 0⟩ ⟨none⟩ false false).1 ⟨none⟩ false false).2.code = some 7 := by
  decide

/-- Regardless of available space, `compile` writes the buffer cursor into the
block's entry field (the assignment precedes the space check in the source). -/
theorem compile_entry_eq_cursor (buf : Sh4CodeBuffer) (b : RuntimeBlockInfo)
    (s o : Bool) : (compile buf b s o).2.code = some buf.cursor := by
  unfold compile
  dsimp only
  split <;> rfl

/-- When at least 4 bytes are free, `compile` advances the buffer by 4. -/
theorem compile_advances_when_space (buf : Sh4CodeBuffer) (b : RuntimeBlockInfo)
    (s o : Bool) (h : 4 ≤ buf.getFreeSpace) :
    (compile buf b s o).1 = buf.advance 4 := by
  unfold compile
  rw [if_pos h]

/-- C2 (amended) -- Provided the buffer has at least 4 bytes free at the first
call, two consecutive `compile` calls receive distinct entry addresses exactly
4 bytes apart, so their 4-byte units do not overlap; without that space the
second unit aliases the first. -/
theorem compile_consecutive_distinct_entries (buf : Sh4CodeBuffer)
    (b1 b2 : RuntimeBlockInfo) (h : 4 ≤ buf.getFreeSpace) :
    (compile buf b1 false false).2.code = some buf.cursor ∧
    (compile (compile buf b1 false false).1 b2 false false).2.code
      = some (buf.cursor + 4) ∧
    (compile buf b1 false false).2.code ≠
      (compile (compile buf b1 false false).1 b2 false false).2.code := by
  rw [compile_advances_when_space buf b1 false false h,
    compile_entry_eq_cursor, compile_entry_eq_cursor]
  refine ⟨rfl, rfl, by simp [Sh4CodeBuffer.advance]⟩

/-- C2 witness: a buffer with exactly 4 bytes free. -/
theorem compile_consecutive_distinct_entries_witness :
    (compile ⟨0, 4⟩ ⟨none⟩ false false).2.code = some 0 ∧
    (compile (compile ⟨0, 4⟩ ⟨none⟩ false false).1 ⟨none⟩ false false).2.code = some 4 ∧
    (compile ⟨0, 4⟩ ⟨none⟩ false false).2.code ≠
      (compile (compile ⟨0, 4⟩ ⟨none⟩ false false).1 ⟨none⟩ false false).2.code :=
  compile_consecutive_distinct_entries ⟨0, 4⟩ ⟨none⟩ ⟨none⟩ (by decide)

/-- C9 -- Buffer accounting of repeated `compile` calls with the fixed 4-byte
unit size: with free space sufficient for all `N` calls the cursor advances by
exactly `4 * N` (and free space shrinks by the same amount); once free space is
insufficient for one unit, further calls change the buffer by 0 additional
bytes; and in all cases `cursor + free` is preserved, so the buffer never
overflows its capacity. -/
theorem compileN_buffer_accounting (N : Nat) (buf : Sh4CodeBuffer) :
    (4 * N ≤ buf.free →
      compileN N buf = ⟨buf.cursor + 4 * N, buf.free - 4 * N⟩) ∧
    (buf.free < 4 → compileN N buf = buf) ∧
    (compileN N buf).cursor + (compileN N buf).free = buf.cursor + buf.free := by
  induction N generalizing buf with
  | zero =>
    refine ⟨fun _ => ?_, fun _ => rfl, rfl⟩
    simp [compileN]
  | succ n ih =>
    refine ⟨fun h => ?_, fun h => ?_, ?_⟩
    · have hstep : (compile buf ⟨none⟩ false false).1 = buf.advance 4 := by
        unfold compile
        rw [if_pos (by simp [Sh4CodeBuffer.getFreeSpace]; omega)]
      have h4 : 4 ≤ buf.free := by omega
      rw [compileN, hstep]
      have := (ih (buf.advance 4)).1
      simp only [Sh4CodeBuffer.advance] at this ⊢
      rw [this (by omega)]
      congr 1
      · omega
      · omega
    · have hstep : (compile buf ⟨none⟩ false false).1 = buf := by
        unfold compile
        rw [if_neg (by simp [Sh4CodeBuffer.getFreeSpace]; omega)]
      rw [compileN, hstep, (ih buf).2.1 h]
    · rw [compileN]
      by_cases hc : 4 ≤ buf.free
      · have hstep : (compile buf ⟨none⟩ false false).1 = buf.advance 4 := by
          unfold compile
          rw [if_pos (by simpa [Sh4CodeBuffer.getFreeSpace] using hc)]
        rw [hstep]
        have := (ih (buf.advance 4)).2.2
        simp only [Sh4CodeBuffer.advance] at this ⊢
        omega
      · have hstep : (compile buf ⟨none⟩ false false).1 = buf := by
          unfold compile
          rw [if_neg (by simpa [Sh4CodeBuffer.getFreeSpace] using hc)]
        rw [hstep]
        exact (ih buf).2.2

/-- C9 witness: three calls on a 12-byte-free buffer advance the cursor by 12;
any number of calls on a 3-byte-free buffer leave it untouched. -/
theorem compileN_buffer_accounting_witness :
    compileN 3 ⟨0, 12⟩ = ⟨12, 0⟩ ∧ compileN 5 ⟨9, 3⟩ = ⟨9, 3⟩ :=
  ⟨(compileN_buffer_accounting 3 ⟨0, 12⟩).1 (by decide),
   (compileN_buffer_accounting 5 ⟨9, 3⟩).2.1 (by decide)⟩

end RecWasm

namespace RecWasm

/-- C6 -- When the floating-point-disabled flag is set and the fetched opcode
is a floating-point operation, dispatch raises the FPU-disabled exception
carrying the instruction's own address instead of invoking the semantics: the
resulting context differs from the input only in the advanced program counter,
so no floating-point state is mutated. -/
theorem fpu_disabled_raises_not_dispatches (env : DispatchEnv) (ctx : Sh4Context)
    (h1 : ctx.sr_FD = true)
    (h2 : env.isFloatingPoint (env.IReadMem16 ctx.pc % 65536) = true) :
    execInstr env ctx = ({ ctx with pc := (ctx.pc + 2) % 4294967296 },
      some ⟨ctx.pc, Sh4ExceptionCode.FpuDisabled⟩) := by
  simp [execInstr, h1, h2]

/-- C6 witness: every opcode of `envFpu` is floating-point and `ctxFD` has the
flag set; the raise carries address 0 and leaves budget and registers alone. -/
theorem fpu_disabled_raises_not_dispatches_witness :
    execInstr envFpu ctxFD
      = (⟨2, true, 10, true, 0, 0⟩, some ⟨0, Sh4ExceptionCode.FpuDisabled⟩) :=
  fpu_disabled_raises_not_dispatches envFpu ctxFD rfl rfl

/-- C7 -- The program counter is advanced past the instruction before the
semantics table is invoked: a spy semantics function that records the program
counter it observes always records the address of the following instruction,
`(pc + 2) mod 2^32`. -/
theorem pc_advanced_before_dispatch (rd : Nat → Nat) (fp : Nat → Bool)
    (de : Nat → Sh4ExceptionCode → Sh4Context → Sh4Context)
    (us : Sh4Context → Sh4Context) (T : Nat) (ctx : Sh4Context)
    (h : ctx.sr_FD = false) :
    (execInstr ⟨rd, fp, fun _ c => ({ c with r := c.pc }, none), de, us, T⟩ ctx).1.r
      = (ctx.pc + 2) % 4294967296 := by
  simp [execInstr, h]

/-- C7 witness: at pc 0 the spy records 2. -/
theorem pc_advanced_before_dispatch_witness :
    (execInstr ⟨fun _ => 0, fun _ => false,
        fun _ c => ({ c with r := c.pc }, none),
        fun _ _ c => c, id, 448⟩ ctx10).1.r = 2 :=
  pc_advanced_before_dispatch (fun _ => 0) (fun _ => false)
    (fun _ _ c => c) id 448 ctx10 rfl

end RecWasm

namespace RecWasm

/-- C8 -- At every timeslice rollover the counter is replenished by exactly the
`SH4_TIMESLICE` quantum on top of its exhausted value, and the external
system-update step is invoked exactly once: with a spy system step that
increments `r`, the post-rollover state is the exhausted state with
`cycle_counter + T` and `r + 1`. -/
theorem rollover_replenishes_and_updates_once (ifuel : Nat)
    (rd : Nat → Nat) (fp : Nat → Bool)
    (osem : Nat → Sh4Context → Sh4Context × Option SH4ThrownException)
    (de : Nat → Sh4ExceptionCode → Sh4Context → Sh4Context) (T : Nat)
    (ctx c : Sh4Context)
    (h : innerLoop ifuel ⟨rd, fp, osem, de, fun s => { s with r := s.r + 1 }, T⟩ ctx
      = (c, InnerExit.budget)) :
    outerBody ifuel ⟨rd, fp, osem, de, fun s => { s with r := s.r + 1 }, T⟩ ctx
      = ({ c with cycle_counter := c.cycle_counter + (T : Int), r := c.r + 1 },
         OuterExit.rolled) := by
  unfold outerBody
  rw [h]

/-- C8 witness: ten no-op instructions exhaust a budget of 10; the rollover
adds 448 and bumps the spy register once. -/
theorem rollover_replenishes_and_updates_once_witness :
    outerBody 20 ⟨fun _ => 0, fun _ => false, fun _ c => (c, none),
        fun _ _ c => c, fun s => { s with r := s.r + 1 }, 448⟩ ctx10
      = (⟨20, false, 448, true, 0, 1⟩, OuterExit.rolled) :=
  rollover_replenishes_and_updates_once 20 (fun _ => 0) (fun _ => false)
    (fun _ c => (c, none)) (fun _ _ c => c) 448 ctx10 ⟨20, false, 0, true, 0, 0⟩
    (by decide)

/-- C5 -- Counterexample: with budget 10, 1-cycle no-op instructions and
quantum 448, the budget before the 11th instruction is 448 (the exhausted value
0 plus the quantum), not 10 + 448 as the claim states. -/
theorem rollover_budget_counterexample :
    (outerBody 20 (envNoop 448) ctx10).1.cycle_counter = 448 ∧
    ¬ (outerBody 20 (envNoop 448) ctx10).1.cycle_counter = 10 + 448 := by
  decide

/-- C5 (amended) -- Starting with budget 10 and 1-cycle no-op instructions,
exactly 10 instructions execute (pc reaches 20), the timeslice rolls over, and
the budget before the 11th instruction equals the timeslice quantum `T`
(the exhausted value 0 plus `T`), for every quantum `T`. -/
theorem rollover_budget_after_ten_instructions (T : Nat) :
    (outerBody 20 (envNoop T) ctx10).1.pc = 20 ∧
    (outerBody 20 (envNoop T) ctx10).1.cycle_counter = (T : Int) ∧
    (outerBody 20 (envNoop T) ctx10).2 = OuterExit.rolled := by
  have h : innerLoop 20 (envNoop T) ctx10
      = (⟨20, false, 0, true, 0, 0⟩, InnerExit.budget) := rfl
  unfold outerBody
  rw [h]
  refine ⟨rfl, ?_, rfl⟩
  show (0 : Int) + (T : Int) = (T : Int)
  simp

end RecWasm

namespace RecWasm

/-- C3 -- Evaluation at the failing input: an FPU-disabled raise with budget 10
resumes dispatch at the handler address 256 written by the exception entry
(never at the faulting address 0), but the `cycle_counter += 5` in the catch
handler leaves the budget at 15 = 10 + 5, a credit; a charged drain penalty
would leave 5 = 10 - 5. -/
theorem exception_drain_credits_budget :
    (outerBody 5 envFpu ctxFD).1.pc = 256 ∧
    (outerBody 5 envFpu ctxFD).1.cycle_counter = ctxFD.cycle_counter + 5 ∧
    ¬ (outerBody 5 envFpu ctxFD).1.cycle_counter = ctxFD.cycle_counter - 5 ∧
    (outerBody 5 envFpu ctxFD).2
      = OuterExit.excepted ⟨0, Sh4ExceptionCode.FpuDisabled⟩ := by
  decide

/-- C4 -- Counterexample: under `envHalt` the first instruction clears the
running flag mid-timeslice and the second raises an exception; the loop then
observes the flag at the outer condition and exits with a positive budget (14)
and zero timeslice rollovers — an exit that is not at a timeslice boundary and
does not follow a budget-exhaustion event. -/
theorem halt_mid_timeslice_counterexample :
    (mainloop 5 20 envHalt ctx10).1.cycle_counter = 14 ∧
    0 < (mainloop 5 20 envHalt ctx10).1.cycle_counter ∧
    (mainloop 5 20 envHalt ctx10).2.1 = 0 ∧
    (mainloop 5 20 envHalt ctx10).2.2 = true := by
  decide

/-- C4 (amended) -- Halting is cooperative: the running flag is consulted only
at the outer loop condition. If the inner dispatch loop exits without an
exception, the budget is exhausted (`cycle_counter ≤ 0`), so in an
exception-free execution the loop never exits mid-timeslice; and whenever the
flag is observed false at the outer condition — reached after a rollover or
after handling an exception — the loop stops immediately, so a halt request
takes effect no later than the next such check (at most one timeslice). -/
theorem halt_checked_at_outer_boundary :
    (∀ (fuel : Nat) (env : DispatchEnv) (ctx : Sh4Context),
      (innerLoop fuel env ctx).2 = InnerExit.budget →
      (innerLoop fuel env ctx).1.cycle_counter ≤ 0) ∧
    (∀ (n ifuel : Nat) (env : DispatchEnv) (ctx : Sh4Context),
      (outerBody ifuel env ctx).1.CpuRunning = false →
      (outerBody ifuel env ctx).2 ≠ OuterExit.fuelOut →
      mainloopAux (n + 1) ifuel env ctx
        = ((outerBody ifuel env ctx).1,
           (if (outerBody ifuel env ctx).2 = OuterExit.rolled then 1 else 0),
           true)) := by
  constructor
  · intro fuel
    induction fuel with
    | zero =>
      intro env ctx h
      simp [innerLoop] at h
    | succ n ih =>
      intro env ctx h
      rw [innerLoop] at h ⊢
      rcases he : execInstr env ctx with ⟨c, oe⟩
      rw [he] at h
      cases oe with
      | some e => simp at h
      | none =>
        replace h : (if 0 < c.cycle_counter then innerLoop n env c
            else (c, InnerExit.budget)).2 = InnerExit.budget := h
        show (if 0 < c.cycle_counter then innerLoop n env c
            else (c, InnerExit.budget)).1.cycle_counter ≤ 0
        by_cases hc : 0 < c.cycle_counter
        · rw [if_pos hc] at h ⊢
          exact ih env c h
        · rw [if_neg hc] at h ⊢
          show c.cycle_counter ≤ 0
          omega
  · intro n ifuel env ctx hrun hfuel
    rw [mainloopAux]
    rcases ho : outerBody ifuel env ctx with ⟨c, ex⟩
    rw [ho] at hrun hfuel
    cases ex with
    | rolled =>
      replace hrun : c.CpuRunning = false := hrun
      simp [hrun]
    | excepted e =>
      replace hrun : c.CpuRunning = false := hrun
      simp [hrun]
    | fuelOut => simp at hfuel

/-- C4 witness: the exhaustion part at a concrete no-op run, and the immediate
stop at the first outer check for the `envHalt` run. -/
theorem halt_checked_at_outer_boundary_witness :
    (innerLoop 20 (envNoop 448) ctx10).1.cycle_counter ≤ 0 ∧
    mainloopAux 3 20 envHalt ctx10 = (⟨256, false, 14, false, 0, 0⟩, 0, true) :=
  ⟨halt_checked_at_outer_boundary.1 20 (envNoop 448) ctx10 (by decide),
   halt_checked_at_outer_boundary.2 2 20 envHalt ctx10 (by decide) (by decide)⟩

/-- C10 -- The per-instruction cycle cost is charged only after the semantics
call returns normally: when the semantics raise an exception, `execInstr`
returns exactly the semantics' output (no `CYCLES_PER_INSTRUCTION` decrement);
on normal return the decrement is applied; and a faulting timeslice's budget is
adjusted only by the exception-drain amount on top of the `Do_Exception`
result. -/
theorem faulting_instruction_not_charged (ifuel : Nat) (env : DispatchEnv)
    (ctx : Sh4Context) (h : ctx.sr_FD = false) :
    (∀ e, (semResult env ctx).2 = some e →
      execInstr env ctx = ((semResult env ctx).1, some e)) ∧
    ((semResult env ctx).2 = none →
      (execInstr env ctx).1.cycle_counter
        = (semResult env ctx).1.cycle_counter - CYCLES_PER_INSTRUCTION) ∧
    (∀ (c : Sh4Context) (e : SH4ThrownException),
      innerLoop ifuel env ctx = (c, InnerExit.exn e) →
      (outerBody ifuel env ctx).1.cycle_counter
        = (env.Do_Exception e.epc e.expEvn c).cycle_counter + 5) := by
  refine ⟨?_, ?_, ?_⟩
  · intro e he
    unfold semResult at he
    simp only [execInstr, h, Bool.false_and, Bool.false_eq_true, if_false]
    rcases hv : env.OpPtr (env.IReadMem16 ctx.pc % 65536)
        { ctx with pc := (ctx.pc + 2) % 4294967296 } with ⟨c, oe⟩
    rw [hv] at he
    replace he : oe = some e := he
    subst he
    have hv2 := hv
    rw [h] at hv2
    rw [hv2]
    simp [semResult, hv]
  · intro he
    unfold semResult at he
    simp only [execInstr, h, Bool.false_and, Bool.false_eq_true, if_false]
    rcases hv : env.OpPtr (env.IReadMem16 ctx.pc % 65536)
        { ctx with pc := (ctx.pc + 2) % 4294967296 } with ⟨c, oe⟩
    rw [hv] at he
    replace he : oe = none := he
    subst he
    have hv2 := hv
    rw [h] at hv2
    rw [hv2]
    simp [semResult, hv]
  · intro c e hin
    unfold outerBody
    rw [hin]

end RecWasm

namespace RecWasm

/-- C10 witness: under `envRaise` the faulting instruction leaves the budget at
10 (the semantics output, no decrement) and the faulting timeslice ends at
10 + 5; under `envNoop` a normally returning instruction is charged 1 cycle. -/
theorem faulting_instruction_not_charged_witness :
    execInstr envRaise ctx10
      = (⟨2, false, 10, true, 0, 77⟩, some ⟨2, Sh4ExceptionCode.other 3⟩) ∧
    (execInstr (envNoop 448) ctx10).1.cycle_counter = 9 ∧
    (outerBody 20 envRaise ctx10).1.cycle_counter = 15 :=
  ⟨(faulting_instruction_not_charged 20 envRaise ctx10 rfl).1
      ⟨2, Sh4ExceptionCode.other 3⟩ rfl,
   (faulting_instruction_not_charged 20 (envNoop 448) ctx10 rfl).2.1 rfl,
   (faulting_instruction_not_charged 20 envRaise ctx10 rfl).2.2
      ⟨2, false, 10, true, 0, 77⟩ ⟨2, Sh4ExceptionCode.other 3⟩ (by decide)⟩

end RecWasm
